import Mathlib

/-!
# Virtual-to-physical address translation (src/util/virt2phy.h)

A shallow embedding of the two classes of the header:

* `erpc.Virt2Phy` reads one 8-byte entry of `/proc/self/pagemap` with `pread`
  and decodes the page frame number held in bits 0-54;
* `erpc.HugepageCachingVirt2Phy` keeps an `unordered_map` from 2 MiB-aligned
  virtual bases to the raw translation of that base.

Machine integers are natural numbers reduced modulo `2 ^ 64` wherever the C++
code can wrap.  A method is a function from the object and the kernel side
(the pagemap file) to a `Call`: the returned value, the object after the call
and the I/O the call performed.
-/

namespace erpc

/-! ## Machine arithmetic -/

/-- Value of `static_cast<long>(x)` for a 64-bit unsigned `x` (two's complement). -/
def toLong (x : Nat) : Int :=
  if x % 2 ^ 64 < 2 ^ 63 then ((x % 2 ^ 64 : Nat) : Int)
  else ((x % 2 ^ 64 : Nat) : Int) - 2 ^ 64

/-- Value of a `ssize_t` stored into an `int` (the low 32 bits, two's complement). -/
def toInt (x : Int) : Int :=
  if x % 2 ^ 32 < 2 ^ 31 then x % 2 ^ 32 else x % 2 ^ 32 - 2 ^ 32

/-- Bitwise complement `~x` of a 64-bit unsigned value. -/
def not64 (x : Nat) : Nat := 2 ^ 64 - 1 - x % 2 ^ 64

/-- Modelled from the spec: the macro `MB` of `common.h`, which is not part of the
sources at hand; the spec fixes `MB(2)` at 2 MiB = 2097152 bytes. -/
def MB (x : Nat) : Nat := x * 1048576

/-! ## The kernel side: `/proc/self/pagemap` -/

/-- What one `pread(fd, &page, count, offset)` call leaves behind: the value it
returns (`-1` on error, else the number of bytes read) and the content of the
variable `page` after the call, read as a `uint64_t`. -/
structure PreadResult where
  ret : Int
  page : Nat
deriving DecidableEq, Repr

/-- The pagemap as the translator sees it: the outcome of a positioned read,
given the file descriptor, the byte count and the (signed) file offset. -/
structure Pagemap where
  pread : Int → Nat → Int → PreadResult

/-- Observable I/O of a call. -/
inductive Event where
  /-- A `pread(fd, &page, count, offset)` system call. -/
  | pread (fd : Int) (count : Nat) (offset : Int)
  /-- The diagnostic "cannot read /proc/self/pagemap: ..." on `stderr`. -/
  | diagReadFailed
  /-- The diagnostic "read %d bytes from /proc/self/pagemap but expected %zu" on `stderr`. -/
  | diagShortRead (ret : Int) (expected : Nat)
deriving DecidableEq, Repr

/-- Whether an event is a `pread` system call. -/
def Event.isPread : Event → Bool
  | Event.pread _ _ _ => true
  | _ => false

/-- Outcome of a method call on an object of type `σ`: the returned `uint64_t`,
the object after the call, and the I/O performed, in order. -/
structure Call (σ : Type) where
  val : Nat
  self : σ
  trace : List Event
deriving DecidableEq, Repr

/-! ## `class Virt2Phy` -/

/-- Data members of `Virt2Phy`. -/
structure Virt2Phy where
  fd_ : Int
  page_size_ : Nat
deriving DecidableEq, Repr

/-- The constant `Virt2Phy::kPfnMaskSize`. -/
def kPfnMaskSize : Nat := 8

/-- The mask `0x7fffffffffffffULL` of bits 0-54. -/
def kPfnMask : Nat := 0x7fffffffffffff

/-- The local `virt_pfn` of `Virt2Phy::translate` (lines 45-46). -/
def Virt2Phy.virt_pfn (self : Virt2Phy) (virtaddr : Nat) : Nat :=
  (virtaddr / self.page_size_) % 2 ^ 64

/-- The local `offset` of `Virt2Phy::translate` (line 47), as passed to `pread`
after `static_cast<long>`. -/
def Virt2Phy.offset (self : Virt2Phy) (virtaddr : Nat) : Int :=
  toLong ((8 * self.virt_pfn virtaddr) % 2 ^ 64)

/-- The positioned read of `Virt2Phy::translate` (line 50). -/
def Virt2Phy.read (self : Virt2Phy) (env : Pagemap) (virtaddr : Nat) : PreadResult :=
  env.pread self.fd_ kPfnMaskSize (self.offset virtaddr)

/-- The method `Virt2Phy::translate` (lines 44-70).  `virtaddr` is the pointer
read as a `uint64_t`; the division by `page_size_` is only defined in C++ for a
non-zero page size. -/
def Virt2Phy.translate (self : Virt2Phy) (env : Pagemap) (virtaddr : Nat) : Call Virt2Phy :=
  let rd := self.read env virtaddr
  let page := rd.page % 2 ^ 64
  let ret := toInt rd.ret
  let io := [Event.pread self.fd_ kPfnMaskSize (self.offset virtaddr)]
  if ret < 0 then
    ⟨0, self, io ++ [Event.diagReadFailed]⟩
  else if ret ≠ (kPfnMaskSize : Int) then
    ⟨0, self, io ++ [Event.diagShortRead ret kPfnMaskSize]⟩
  else if page &&& kPfnMask = 0 then
    ⟨0, self, io⟩
  else
    let physaddr := (((page &&& kPfnMask) * self.page_size_) % 2 ^ 64
                      + virtaddr % self.page_size_) % 2 ^ 64
    ⟨physaddr, self, io⟩

/-! ## `class HugepageCachingVirt2Phy` -/

/-- The member `v2p_cache_`, a `std::unordered_map<uint64_t, uint64_t>`, as a
list of key/value pairs with pairwise distinct keys. -/
abbrev V2PCache := List (Nat × Nat)

/-- The call `unordered_map::find`: the pair stored under `key`, if any. -/
def V2PCache.find (m : V2PCache) (key : Nat) : Option (Nat × Nat) :=
  List.find? (fun e => e.1 == key) m

/-- The call `unordered_map::emplace`: inserts the pair unless the key is present. -/
def V2PCache.emplace (m : V2PCache) (key value : Nat) : V2PCache :=
  match m.find key with
  | some _ => m
  | none => (key, value) :: m

/-- Data members of `HugepageCachingVirt2Phy`. -/
structure HugepageCachingVirt2Phy where
  v2p_ : Virt2Phy
  v2p_cache_ : V2PCache
deriving DecidableEq, Repr

/-- The local `va_2_mb` of `HugepageCachingVirt2Phy::translate` (line 81). -/
def va_2_mb (va : Nat) : Nat := va &&& not64 (MB 2 - 1)

/-- The method `HugepageCachingVirt2Phy::translate` (lines 79-93). -/
def HugepageCachingVirt2Phy.translate (self : HugepageCachingVirt2Phy) (env : Pagemap)
    (va : Nat) : Call HugepageCachingVirt2Phy :=
  match self.v2p_cache_.find (va_2_mb va) with
  | some result => ⟨(result.2 + va % MB 2) % 2 ^ 64, self, []⟩
  | none =>
    -- Here, we have a cache miss
    let raw := self.v2p_.translate env (va_2_mb va)
    let phy_addr := raw.val
    ⟨(phy_addr + va % MB 2) % 2 ^ 64,
      { v2p_ := raw.self, v2p_cache_ := self.v2p_cache_.emplace (va_2_mb va) phy_addr },
      raw.trace⟩

/-- The object right after construction: the translator and an empty map. -/
def HugepageCachingVirt2Phy.init (v2p : Virt2Phy) : HugepageCachingVirt2Phy :=
  ⟨v2p, []⟩

/-- The object after a sequence of `translate` calls, each made against the
pagemap as it is at the time of that call. -/
def HugepageCachingVirt2Phy.run (self : HugepageCachingVirt2Phy) :
    List (Pagemap × Nat) → HugepageCachingVirt2Phy
  | [] => self
  | c :: cs => HugepageCachingVirt2Phy.run (self.translate c.1 c.2).self cs

/-- A sequence of calls for the addresses `as`, all against the same pagemap. -/
def calls (env : Pagemap) (as : List Nat) : List (Pagemap × Nat) :=
  as.map (fun a => (env, a))

/-- Invariant of the object over an unchanging pagemap: the translator member is
`v2p` and every stored value is the raw translation of its key. -/
def CacheInv (v2p : Virt2Phy) (env : Pagemap) (s : HugepageCachingVirt2Phy) : Prop :=
  s.v2p_ = v2p ∧ ∀ e ∈ s.v2p_cache_, e.2 = (v2p.translate env e.1).val

/-! ## Test doubles used by the concrete checks -/

/-- A pagemap whose every read returns the full entry `e`. -/
def constPagemap (e : Nat) : Pagemap := ⟨fun _ _ _ => ⟨8, e⟩⟩

/-- A pagemap whose every read fails with `-1`. -/
def failingPagemap : Pagemap := ⟨fun _ _ _ => ⟨-1, 0⟩⟩

/-- A pagemap whose every read is short: 4 bytes instead of 8, the rest of the
buffer being whatever `buf` says. -/
def shortPagemap (buf : Nat) : Pagemap := ⟨fun _ _ _ => ⟨4, buf⟩⟩

/-- The raw-translator double of the cache scenario on 4 KiB pages: the page of
the 2 MiB base `0x200000` (page index 512, file offset 4096) has frame `0x10000`,
that is physical base `0x10000000`; no other page is resident. -/
def doublePagemap : Pagemap :=
  ⟨fun _ _ off => if off = 4096 then ⟨8, 0x10000⟩ else ⟨8, 0⟩⟩

/-- A hugepage-backed pagemap on 4 KiB pages: the page with index `i` (file offset
`8 * i`) is resident with frame `0x10000 + i`, so frames are contiguous. -/
def hugePagemap : Pagemap :=
  ⟨fun _ _ off => ⟨8, 0x8180000000010000 + off.toNat / 8⟩⟩

/-- A translator on descriptor 3 with the usual 4 KiB page size. -/
def v2p4k : Virt2Phy := ⟨3, 4096⟩

/-! ## Arithmetic facts -/

theorem toInt_eight : toInt 8 = 8 := by decide

theorem and_kPfnMask (x : Nat) : x &&& kPfnMask = x % 2 ^ 55 := by
  have h : kPfnMask = 2 ^ 55 - 1 := by decide
  rw [h, Nat.and_pow_two_sub_one_eq_mod]

theorem mod64_and_kPfnMask (x : Nat) : (x % 2 ^ 64) &&& kPfnMask = x % 2 ^ 55 := by
  rw [and_kPfnMask]
  exact Nat.mod_mod_of_dvd x (by norm_num : (2:ℕ) ^ 55 ∣ 2 ^ 64)

theorem toInt_of_range (x : Int) (hlo : -(2 ^ 31) ≤ x) (hhi : x < 2 ^ 31) : toInt x = x := by
  unfold toInt
  split_ifs with h <;> omega

theorem not64_mask : not64 (MB 2 - 1) = 2 ^ 21 * (2 ^ 43 - 1) := by decide

/-- Clearing the low 21 bits of a 64-bit value rounds it down to a multiple of 2 MiB. -/
theorem va_2_mb_eq (va : Nat) (h : va < 2 ^ 64) : va_2_mb va = va - va % MB 2 := by
  have hM : MB 2 = 2 ^ 21 := by decide
  have hsub : va - va % 2 ^ 21 = 2 ^ 21 * (va / 2 ^ 21) := by
    have := Nat.div_add_mod va (2 ^ 21)
    omega
  rw [va_2_mb, not64_mask, hM, hsub]
  apply Nat.eq_of_testBit_eq
  intro i
  rw [Nat.testBit_and, Nat.testBit_mul_pow_two, Nat.testBit_mul_pow_two,
    Nat.testBit_two_pow_sub_one, ← Nat.shiftRight_eq_div_pow, Nat.testBit_shiftRight]
  by_cases h21 : i ≥ 21
  · by_cases h64 : i < 64
    · have : i - 21 < 43 := by omega
      have e : 21 + (i - 21) = i := by omega
      simp [h21, this, e]
    · have hlt : va < 2 ^ i := lt_of_lt_of_le h (Nat.pow_le_pow_right (by norm_num) (by omega))
      have e : 21 + (i - 21) = i := by omega
      simp [h21, e, Nat.testBit_lt_two_pow hlt]
  · simp [h21]

/-- Closed form of the value returned by the raw translator. -/
theorem Virt2Phy.translate_val (self : Virt2Phy) (env : Pagemap) (va : Nat) :
    (self.translate env va).val
      = if toInt (self.read env va).ret = 8 ∧ (self.read env va).page % 2 ^ 55 ≠ 0 then
          ((self.read env va).page % 2 ^ 55 * self.page_size_ + va % self.page_size_) % 2 ^ 64
        else 0 := by
  simp only [Virt2Phy.translate, mod64_and_kPfnMask, kPfnMaskSize, Nat.cast_ofNat]
  by_cases h1 : toInt (self.read env va).ret < 0
  · have h2 : ¬ toInt (self.read env va).ret = 8 := by omega
    rw [if_pos h1, if_neg (fun h => h2 h.1)]
  · rw [if_neg h1]
    by_cases h2 : toInt (self.read env va).ret = 8
    · rw [if_neg (not_not.mpr h2)]
      by_cases h3 : (self.read env va).page % 2 ^ 55 = 0
      · rw [if_pos h3, if_neg (fun h => h.2 h3)]
      · rw [if_neg h3, if_pos ⟨h2, h3⟩]
        show (_ % 2 ^ 64 + _) % 2 ^ 64 = _
        omega
    · rw [if_pos h2, if_neg (fun h => h2 h.1)]

/-- The read made by the raw translator depends on the address only through its page. -/
theorem Virt2Phy.read_congr (self : Virt2Phy) (env : Pagemap) (a b : Nat)
    (h : a / self.page_size_ = b / self.page_size_) : self.read env a = self.read env b := by
  simp only [Virt2Phy.read, Virt2Phy.offset, Virt2Phy.virt_pfn, h]

/-- Value returned by the raw translator after a full read of a resident entry. -/
theorem Virt2Phy.translate_val_of_full (self : Virt2Phy) (env : Pagemap) (va : Nat)
    (hret : (self.read env va).ret = 8) (hm : (self.read env va).page % 2 ^ 55 ≠ 0) :
    (self.translate env va).val
      = ((self.read env va).page % 2 ^ 55 * self.page_size_ + va % self.page_size_) % 2 ^ 64 := by
  have h8 : ¬ ((8 : Int) < 0) := by decide
  simp only [Virt2Phy.translate, hret, toInt_eight, mod64_and_kPfnMask, kPfnMaskSize, h8,
    if_false, hm, ne_eq, not_true_eq_false, Nat.cast_ofNat]
  omega

/-- The raw translator leaves its own members alone. -/
theorem Virt2Phy.translate_self (self : Virt2Phy) (env : Pagemap) (va : Nat) :
    (self.translate env va).self = self := by
  unfold Virt2Phy.translate
  simp only
  split_ifs <;> rfl

/-- Every call of the raw translator performs its `pread`. -/
theorem Virt2Phy.translate_trace_ne_nil (self : Virt2Phy) (env : Pagemap) (va : Nat) :
    (self.translate env va).trace ≠ [] := by
  unfold Virt2Phy.translate
  simp only
  split_ifs <;> simp

/-! ## Facts about the map -/

theorem V2PCache.find_some {m : V2PCache} {k : Nat} {e : Nat × Nat}
    (h : m.find k = some e) : e ∈ m ∧ e.1 = k := by
  unfold V2PCache.find at h
  exact ⟨List.mem_of_find?_eq_some h, by simpa using List.find?_some h⟩

theorem V2PCache.find_cons (m : V2PCache) (k v k2 : Nat) :
    V2PCache.find ((k, v) :: m) k2 = if k = k2 then some (k, v) else m.find k2 := by
  unfold V2PCache.find
  rw [List.find?_cons]
  by_cases h : k = k2
  · simp [h]
  · have hb : (k == k2) = false := by simpa using h
    simp only [hb, if_neg h]

theorem V2PCache.emplace_of_none (m : V2PCache) (k v : Nat) (h : m.find k = none) :
    m.emplace k v = (k, v) :: m := by
  unfold V2PCache.emplace
  rw [h]

theorem V2PCache.emplace_of_some (m : V2PCache) (k v : Nat) (e : Nat × Nat)
    (h : m.find k = some e) : m.emplace k v = m := by
  unfold V2PCache.emplace
  rw [h]

/-- An entry that can be found is still found, unchanged, after an `emplace`. -/
theorem V2PCache.find_emplace_of_some (m : V2PCache) (k v k2 : Nat) (e : Nat × Nat)
    (h : m.find k2 = some e) : (m.emplace k v).find k2 = some e := by
  cases hk : m.find k with
  | some e2 => rw [m.emplace_of_some k v e2 hk]; exact h
  | none =>
    rw [m.emplace_of_none k v hk, V2PCache.find_cons]
    by_cases hkk : k = k2
    · subst hkk
      rw [hk] at h
      cases h
    · rw [if_neg hkk]; exact h

/-! ## One call of the caching translator -/

/-- A hit returns the stored value plus the offset; no I/O, no change of the object. -/
theorem HugepageCachingVirt2Phy.translate_hit (s : HugepageCachingVirt2Phy) (env : Pagemap)
    (a : Nat) (e : Nat × Nat) (h : s.v2p_cache_.find (va_2_mb a) = some e) :
    s.translate env a = ⟨(e.2 + a % MB 2) % 2 ^ 64, s, []⟩ := by
  unfold HugepageCachingVirt2Phy.translate
  rw [h]

/-- A miss asks the raw translator for the base and stores whatever it returns. -/
theorem HugepageCachingVirt2Phy.translate_miss (s : HugepageCachingVirt2Phy) (env : Pagemap)
    (a : Nat) (h : s.v2p_cache_.find (va_2_mb a) = none) :
    s.translate env a
      = ⟨((s.v2p_.translate env (va_2_mb a)).val + a % MB 2) % 2 ^ 64,
          ⟨s.v2p_, (va_2_mb a, (s.v2p_.translate env (va_2_mb a)).val) :: s.v2p_cache_⟩,
          (s.v2p_.translate env (va_2_mb a)).trace⟩ := by
  unfold HugepageCachingVirt2Phy.translate
  rw [h]
  simp only [Virt2Phy.translate_self, s.v2p_cache_.emplace_of_none _ _ h]

/-- The translator member never changes. -/
theorem HugepageCachingVirt2Phy.translate_v2p (s : HugepageCachingVirt2Phy) (env : Pagemap)
    (a : Nat) : (s.translate env a).self.v2p_ = s.v2p_ := by
  cases h : s.v2p_cache_.find (va_2_mb a) with
  | some e => rw [s.translate_hit env a e h]
  | none => rw [s.translate_miss env a h]

/-- A call keeps every entry that could be found before it. -/
theorem HugepageCachingVirt2Phy.translate_find_of_some (s : HugepageCachingVirt2Phy)
    (env : Pagemap) (a k : Nat) (e : Nat × Nat) (h : s.v2p_cache_.find k = some e) :
    (s.translate env a).self.v2p_cache_.find k = some e := by
  cases hf : s.v2p_cache_.find (va_2_mb a) with
  | some e2 => rw [s.translate_hit env a e2 hf]; exact h
  | none =>
    rw [s.translate_miss env a hf]
    show V2PCache.find ((va_2_mb a, _) :: s.v2p_cache_) k = some e
    rw [V2PCache.find_cons]
    by_cases hk : va_2_mb a = k
    · rw [hk, h] at hf
      cases hf
    · rw [if_neg hk]; exact h

/-- So does any sequence of calls. -/
theorem HugepageCachingVirt2Phy.run_find_of_some (cs : List (Pagemap × Nat))
    (s : HugepageCachingVirt2Phy) (k : Nat) (e : Nat × Nat)
    (h : s.v2p_cache_.find k = some e) : (s.run cs).v2p_cache_.find k = some e := by
  induction cs generalizing s with
  | nil => exact h
  | cons c cs ih =>
    exact ih (s.translate c.1 c.2).self (s.translate_find_of_some c.1 c.2 k e h)

/-! ## The cache holds raw translations of its keys -/

theorem CacheInv.of_init (v2p : Virt2Phy) (env : Pagemap) :
    CacheInv v2p env (HugepageCachingVirt2Phy.init v2p) :=
  ⟨rfl, fun e he => by cases he⟩

theorem CacheInv.step {v2p : Virt2Phy} {env : Pagemap} {s : HugepageCachingVirt2Phy}
    (hs : CacheInv v2p env s) (a : Nat) : CacheInv v2p env (s.translate env a).self := by
  cases hf : s.v2p_cache_.find (va_2_mb a) with
  | some e => rw [s.translate_hit env a e hf]; exact hs
  | none =>
    rw [s.translate_miss env a hf]
    refine ⟨hs.1, fun e he => ?_⟩
    rcases List.mem_cons.mp he with rfl | he
    · simp only [hs.1]
    · exact hs.2 e he

theorem CacheInv.of_run {v2p : Virt2Phy} {env : Pagemap} (as : List Nat)
    {s : HugepageCachingVirt2Phy} (hs : CacheInv v2p env s) :
    CacheInv v2p env (s.run (calls env as)) := by
  induction as generalizing s with
  | nil => exact hs
  | cons a as ih => exact ih (hs.step a)

/-- Under the invariant a lookup returns the raw translation of the base plus the
offset in the 2 MiB region, on a hit as on a miss. -/
theorem CacheInv.lookup_val {v2p : Virt2Phy} {env : Pagemap} {s : HugepageCachingVirt2Phy}
    (hs : CacheInv v2p env s) (a : Nat) :
    (s.translate env a).val = ((v2p.translate env (va_2_mb a)).val + a % MB 2) % 2 ^ 64 := by
  cases hf : s.v2p_cache_.find (va_2_mb a) with
  | some e =>
    rw [s.translate_hit env a e hf]
    obtain ⟨hmem, hkey⟩ := V2PCache.find_some hf
    simp only [hs.2 e hmem, hkey]
  | none =>
    rw [s.translate_miss env a hf]
    simp only [hs.1]

/-! ## The raw translator -/

/-- C1: for every virtual address, every page size `ps > 0` and every pagemap whose
positioned read at the entry of the page returns a full 8-byte entry `e` with
non-zero low 55 bits `m = e & (2^55 - 1)`, `Virt2Phy::translate` returns
`(m * ps + va mod ps) mod 2^64`; an entry `e2` with the same low 55 bits (bits
55-63 arbitrary) gives the same result. -/
theorem Virt2Phy.translate_resident (self : Virt2Phy) (env : Pagemap) (va e : Nat)
    (hps : 0 < self.page_size_)
    (hrd : self.read env va = ⟨8, e⟩) (hm : e &&& (2 ^ 55 - 1) ≠ 0) :
    (self.translate env va).val
        = ((e &&& (2 ^ 55 - 1)) * self.page_size_ + va % self.page_size_) % 2 ^ 64
      ∧ ∀ (env2 : Pagemap) (e2 : Nat), self.read env2 va = ⟨8, e2⟩ →
          e2 &&& (2 ^ 55 - 1) = e &&& (2 ^ 55 - 1) →
          (self.translate env2 va).val = (self.translate env va).val := by
  have _ := hps
  rw [Nat.and_pow_two_sub_one_eq_mod] at hm ⊢
  have key : (self.translate env va).val
      = (e % 2 ^ 55 * self.page_size_ + va % self.page_size_) % 2 ^ 64 := by
    have h := self.translate_val_of_full env va (by rw [hrd]) (by rw [hrd]; exact hm)
    rw [hrd] at h
    exact h
  refine ⟨key, ?_⟩
  intro env2 e2 hrd2 he
  rw [Nat.and_pow_two_sub_one_eq_mod] at he
  have h := self.translate_val_of_full env2 va (by rw [hrd2]) (by rw [hrd2, he]; exact hm)
  rw [hrd2, he] at h
  rw [h, key]

/-- Witness of C1: on 4 KiB pages, the entry `0x8180000000012345` (flag bits 63, 56
and 55 set, frame `0x12345`) translates `0x7f0000001abc` to `0x12345abc`. -/
theorem Virt2Phy.translate_resident_witness :
    (v2p4k.translate (constPagemap 0x8180000000012345) 0x7f0000001abc).val = 0x12345abc
      ∧ (v2p4k.translate (constPagemap 0x8180000000012345) 0x7f0000001abc).val
        = ((0x8180000000012345 &&& (2 ^ 55 - 1)) * v2p4k.page_size_
            + 0x7f0000001abc % v2p4k.page_size_) % 2 ^ 64 :=
  ⟨by decide,
   (Virt2Phy.translate_resident v2p4k (constPagemap 0x8180000000012345) 0x7f0000001abc
      0x8180000000012345 (by decide) rfl (by decide)).1⟩

/-- C2: when the positioned read of the pagemap entry returns `r`, a negative value
or a byte count other than 8 (as a `pread` of 8 bytes does, `r` fits in an `int`),
`Virt2Phy::translate` returns 0 whatever the buffer `buf` holds.  The call is an
ordinary return: the embedding of `translate` is a total function, the code has
no `exit` on this path. -/
theorem Virt2Phy.translate_failed_read (self : Virt2Phy) (env : Pagemap) (va : Nat)
    (r : Int) (buf : Nat) (hrd : self.read env va = ⟨r, buf⟩)
    (hint : -(2 ^ 31) ≤ r ∧ r < 2 ^ 31) (hret : r < 0 ∨ r ≠ 8) :
    (self.translate env va).val = 0 := by
  have hr : toInt r = r := toInt_of_range r hint.1 hint.2
  have hne : ¬ toInt r = 8 := by
    rw [hr]
    rcases hret with h | h
    · omega
    · exact h
  rw [self.translate_val env va, hrd]
  exact if_neg (fun h => hne h.1)

/-- Witness of C2: a read that returns 4 of the 8 bytes makes `translate` return 0,
even though the buffer holds a resident-looking entry. -/
theorem Virt2Phy.translate_failed_read_witness :
    (v2p4k.translate (shortPagemap 0x12345) 0x7f0000001abc).val = 0 :=
  Virt2Phy.translate_failed_read v2p4k (shortPagemap 0x12345) 0x7f0000001abc 4 0x12345 rfl
    (by decide) (Or.inr (by decide))

/-- C3: when the fully read entry `e` has its low 55 bits all zero, `Virt2Phy::translate`
returns 0, whatever bits 55-63 of `e`, the address and the page size are. -/
theorem Virt2Phy.translate_not_present (self : Virt2Phy) (env : Pagemap) (va e : Nat)
    (hrd : self.read env va = ⟨8, e⟩) (hm : e &&& (2 ^ 55 - 1) = 0) :
    (self.translate env va).val = 0 := by
  rw [Nat.and_pow_two_sub_one_eq_mod] at hm
  rw [self.translate_val env va, hrd]
  exact if_neg (fun h => h.2 hm)

/-- Witness of C3: the entry `0xff80000000000000` (all of bits 55-63 set, no frame)
at an address with in-page offset `0xabc`. -/
theorem Virt2Phy.translate_not_present_witness :
    (v2p4k.translate (constPagemap 0xff80000000000000) 0x7f0000001abc).val = 0 :=
  Virt2Phy.translate_not_present v2p4k (constPagemap 0xff80000000000000) 0x7f0000001abc
    0xff80000000000000 rfl (by decide)

/-- Counterexample to C4 as stated: on 4 KiB pages a fully read entry whose low 55
bits are `2^52` (non-zero) makes `translate` return 0 at a page-aligned address,
because `2^52 * 4096` wraps to 0 modulo `2^64`. -/
theorem Virt2Phy.translate_zero_without_failure :
    v2p4k.read (constPagemap (2 ^ 52)) 0x7f0000001000 = ⟨8, 2 ^ 52⟩
      ∧ (2 ^ 52) &&& (2 ^ 55 - 1) ≠ 0
      ∧ (v2p4k.translate (constPagemap (2 ^ 52)) 0x7f0000001000).val = 0 := by
  decide

/-- C4, amended: let the read return `r` (fitting an `int`) and leave `e` in the
buffer, with `m = e & (2^55 - 1)`, and let the page size be positive.  If the
address computation of a full read does not wrap (`m * ps + va mod ps < 2^64`),
then a full read of an entry with `m ≠ 0` gives a non-zero result, and `translate`
returns 0 if and only if the read failed, was short, or `m = 0`. -/
theorem Virt2Phy.translate_eq_zero_iff (self : Virt2Phy) (env : Pagemap) (va : Nat)
    (r : Int) (e : Nat) (hrd : self.read env va = ⟨r, e⟩)
    (hps : 0 < self.page_size_) (hint : -(2 ^ 31) ≤ r ∧ r < 2 ^ 31)
    (hnowrap : r = 8 → (e &&& (2 ^ 55 - 1)) * self.page_size_ + va % self.page_size_ < 2 ^ 64) :
    (r = 8 → e &&& (2 ^ 55 - 1) ≠ 0 → (self.translate env va).val ≠ 0)
      ∧ ((self.translate env va).val = 0 ↔ (r < 0 ∨ r ≠ 8 ∨ e &&& (2 ^ 55 - 1) = 0)) := by
  have hr : toInt r = r := toInt_of_range r hint.1 hint.2
  rw [Nat.and_pow_two_sub_one_eq_mod] at hnowrap ⊢
  have hval : r = 8 → e % 2 ^ 55 ≠ 0 → (self.translate env va).val ≠ 0 := by
    intro h8 hm
    rw [self.translate_val env va, hrd]
    simp only [hr]
    rw [if_pos ⟨h8, hm⟩, Nat.mod_eq_of_lt (hnowrap h8)]
    have : 0 < e % 2 ^ 55 * self.page_size_ := Nat.mul_pos (Nat.pos_of_ne_zero hm) hps
    omega
  refine ⟨hval, ⟨fun h0 => ?_, fun h => ?_⟩⟩
  · by_contra hcon
    push_neg at hcon
    exact hval hcon.2.1 hcon.2.2 h0
  · rw [self.translate_val env va, hrd]
    simp only [hr]
    apply if_neg
    rintro ⟨h8, hm⟩
    rcases h with h | h | h
    · omega
    · exact h h8
    · exact hm h

/-- Witness of C4 (amended): frame `0x12345` on 4 KiB pages, no wraparound. -/
theorem Virt2Phy.translate_eq_zero_iff_witness :
    (v2p4k.translate (constPagemap 0x8180000000012345) 0x7f0000001abc).val ≠ 0 :=
  (Virt2Phy.translate_eq_zero_iff v2p4k (constPagemap 0x8180000000012345) 0x7f0000001abc
    8 0x8180000000012345 rfl (by decide) (by decide) (fun _ => by decide)).1 rfl (by decide)

/-- C5: offset law.  For a page-aligned address `p` whose translation is non-zero and
every `k < page_size` (with `p + k` still a 64-bit address), the translation of
`p + k` against the same pagemap is the translation of `p` plus `k`, in 64-bit
arithmetic. -/
theorem Virt2Phy.translate_offset_law (self : Virt2Phy) (env : Pagemap) (p k : Nat)
    (hal : p % self.page_size_ = 0) (hk : k < self.page_size_) (hva : p + k < 2 ^ 64)
    (hres : (self.translate env p).val ≠ 0) :
    (self.translate env (p + k)).val = ((self.translate env p).val + k) % 2 ^ 64 := by
  have _ := hva
  have hps : 0 < self.page_size_ := by omega
  obtain ⟨q, rfl⟩ := Nat.dvd_of_mod_eq_zero hal
  have hdiv : (self.page_size_ * q + k) / self.page_size_ = self.page_size_ * q / self.page_size_ := by
    rw [Nat.mul_add_div hps, Nat.mul_div_cancel_left q hps, Nat.div_eq_of_lt hk]
    rfl
  have hmod : (self.page_size_ * q + k) % self.page_size_ = k := by
    rw [Nat.mul_add_mod, Nat.mod_eq_of_lt hk]
  have hread := self.read_congr env _ _ hdiv
  rw [self.translate_val env (self.page_size_ * q)] at hres ⊢
  rw [self.translate_val env (self.page_size_ * q + k), hread, hmod]
  split_ifs with h
  · rw [Nat.mul_mod_right]
    omega
  · rw [if_neg h] at hres
    exact absurd rfl hres

/-- Witness of C5: page `0x7f0000001000` with frame `0x12345`, offset `0xabc`. -/
theorem Virt2Phy.translate_offset_law_witness :
    (v2p4k.translate (constPagemap 0x12345) (0x7f0000001000 + 0xabc)).val
      = ((v2p4k.translate (constPagemap 0x12345) 0x7f0000001000).val + 0xabc) % 2 ^ 64 :=
  Virt2Phy.translate_offset_law v2p4k (constPagemap 0x12345) 0x7f0000001000 0xabc
    (by decide) (by decide) (by decide) (by decide)

/-! ## The caching translator -/

/-- C6: cache equivalence.  Over an unchanging pagemap `env` and starting from the
empty cache, after any sequence `as` of earlier `translate` calls (none: the cold
call; some containing `a`: a warm call; calls for other addresses interleaved at
will) the call `HugepageCachingVirt2Phy::translate(a)` returns
`Virt2Phy::translate(a & ~(2MiB - 1)) + (a mod 2MiB)` modulo `2^64`. -/
theorem HugepageCachingVirt2Phy.translate_cache_equivalence (v2p : Virt2Phy) (env : Pagemap)
    (as : List Nat) (a : Nat) :
    (((HugepageCachingVirt2Phy.init v2p).run (calls env as)).translate env a).val
      = ((v2p.translate env (a &&& not64 (MB 2 - 1))).val + a % MB 2) % 2 ^ 64 :=
  (CacheInv.of_run as (CacheInv.of_init v2p env)).lookup_val a

/-- C7: the hit path performs no raw translation.  Let the first lookup for a 2 MiB
region (no entry for the base of `a1` yet) be made against the pagemap `env1`, and
let any calls follow, against any pagemaps.  Then a call for an address `a2` of
that region, made against an arbitrary pagemap `env2` (one where every read
fails, say), finds the base stored by the first lookup, returns that stored base
plus `a2 mod 2MiB`, performs no I/O at all (every raw translation performs a
`pread`) and leaves the object unchanged. -/
theorem HugepageCachingVirt2Phy.translate_hit_no_raw (s : HugepageCachingVirt2Phy)
    (env1 : Pagemap) (a1 : Nat) (later : List (Pagemap × Nat)) (env2 : Pagemap) (a2 : Nat)
    (hfirst : s.v2p_cache_.find (va_2_mb a1) = none) (hreg : va_2_mb a2 = va_2_mb a1) :
    ((s.translate env1 a1).self.run later).v2p_cache_.find (va_2_mb a2)
        = some (va_2_mb a1, (s.v2p_.translate env1 (va_2_mb a1)).val)
      ∧ ((s.translate env1 a1).self.run later).translate env2 a2
        = ⟨((s.v2p_.translate env1 (va_2_mb a1)).val + a2 % MB 2) % 2 ^ 64,
            (s.translate env1 a1).self.run later, []⟩ := by
  have h1 : (s.translate env1 a1).self.v2p_cache_.find (va_2_mb a1)
      = some (va_2_mb a1, (s.v2p_.translate env1 (va_2_mb a1)).val) := by
    rw [s.translate_miss env1 a1 hfirst]
    show V2PCache.find ((va_2_mb a1, _) :: s.v2p_cache_) (va_2_mb a1) = _
    rw [V2PCache.find_cons, if_pos rfl]
  have h2 := HugepageCachingVirt2Phy.run_find_of_some later _ _ _ h1
  rw [← hreg] at h2
  refine ⟨by rw [h2, hreg], ?_⟩
  rw [hreg] at h2
  rw [HugepageCachingVirt2Phy.translate_hit _ env2 a2 _ (by rw [hreg]; exact h2)]

/-- Witness of C7, the scenario of the specification: the raw translator maps base
`0x200000` to `0x10000000`; `translate(0x200000 + 0x123)` returns `0x10000123`, and
a second call against a pagemap whose every read fails returns `0x10000123` again,
without I/O. -/
theorem HugepageCachingVirt2Phy.translate_hit_no_raw_witness :
    (v2p4k.translate doublePagemap 0x200000).val = 0x10000000
      ∧ ((HugepageCachingVirt2Phy.init v2p4k).translate doublePagemap (0x200000 + 0x123)).val
          = 0x10000123
      ∧ (((HugepageCachingVirt2Phy.init v2p4k).translate doublePagemap (0x200000 + 0x123)).self.run
            []).translate failingPagemap (0x200000 + 0x123)
          = ⟨0x10000123,
              ((HugepageCachingVirt2Phy.init v2p4k).translate doublePagemap
                (0x200000 + 0x123)).self.run [], []⟩ :=
  ⟨by decide, by decide,
   (HugepageCachingVirt2Phy.translate_hit_no_raw (HugepageCachingVirt2Phy.init v2p4k)
      doublePagemap (0x200000 + 0x123) [] failingPagemap (0x200000 + 0x123)
      (by decide) rfl).2⟩

/-- Counterexample to C8 as stated: on 4 KiB pages with no page resident, the raw
translation of base `0x200000` fails, yet the first lookup of `0x200123` stores
the entry `(0x200000, 0)`, and the next lookup in the region performs no read:
the raw translator is not invoked again. -/
theorem HugepageCachingVirt2Phy.sentinel_is_cached :
    (v2p4k.translate (constPagemap 0) (va_2_mb 0x200123)).val = 0
      ∧ ((HugepageCachingVirt2Phy.init v2p4k).translate (constPagemap 0) 0x200123).self.v2p_cache_
          = [(0x200000, 0)]
      ∧ (((HugepageCachingVirt2Phy.init v2p4k).translate (constPagemap 0) 0x200123).self.translate
            (constPagemap 0) 0x200456).trace = [] := by
  decide

/-- C8, amended: the cache stores whatever the raw translator returned, the sentinel
included.  In every state reached from the empty cache by `translate` calls over an
unchanging pagemap, every entry holds the raw translation of its key (so its value
is 0 exactly when that translation fails); and when a lookup misses and the raw
translation of the base returns 0, the pair `(base, 0)` is inserted and the next
lookup in that region, against any pagemap, is served from the cache without I/O. -/
theorem HugepageCachingVirt2Phy.cache_stores_raw_result :
    (∀ (v2p : Virt2Phy) (env : Pagemap) (as : List Nat),
        ∀ e ∈ ((HugepageCachingVirt2Phy.init v2p).run (calls env as)).v2p_cache_,
          e.2 = (v2p.translate env e.1).val)
      ∧ ∀ (s : HugepageCachingVirt2Phy) (env : Pagemap) (a : Nat),
          s.v2p_cache_.find (va_2_mb a) = none →
          (s.v2p_.translate env (va_2_mb a)).val = 0 →
          (s.translate env a).self.v2p_cache_ = (va_2_mb a, 0) :: s.v2p_cache_
            ∧ ∀ (env2 : Pagemap) (a2 : Nat), va_2_mb a2 = va_2_mb a →
                (s.translate env a).self.translate env2 a2
                  = ⟨(0 + a2 % MB 2) % 2 ^ 64, (s.translate env a).self, []⟩ := by
  refine ⟨fun v2p env as => (CacheInv.of_run as (CacheInv.of_init v2p env)).2, ?_⟩
  intro s env a hmiss hfail
  have hself : (s.translate env a).self = ⟨s.v2p_, (va_2_mb a, 0) :: s.v2p_cache_⟩ := by
    rw [s.translate_miss env a hmiss, hfail]
  refine ⟨by rw [hself], ?_⟩
  intro env2 a2 hreg
  have hfind : (s.translate env a).self.v2p_cache_.find (va_2_mb a2) = some (va_2_mb a, 0) := by
    rw [hself, hreg]
    show V2PCache.find ((va_2_mb a, 0) :: s.v2p_cache_) (va_2_mb a) = _
    rw [V2PCache.find_cons, if_pos rfl]
  rw [HugepageCachingVirt2Phy.translate_hit _ env2 a2 _ hfind]

/-- Witness of C8 (amended): the failed lookup of `0x200123` on an empty cache stores
`(0x200000, 0)`. -/
theorem HugepageCachingVirt2Phy.cache_stores_raw_result_witness :
    ((HugepageCachingVirt2Phy.init v2p4k).translate (constPagemap 0) 0x200123).self.v2p_cache_
      = (va_2_mb 0x200123, 0) :: (HugepageCachingVirt2Phy.init v2p4k).v2p_cache_ :=
  (HugepageCachingVirt2Phy.cache_stores_raw_result.2 (HugepageCachingVirt2Phy.init v2p4k)
    (constPagemap 0) 0x200123 (by decide) (by decide)).1

/-- Counterexample to C9 as stated: on 4 KiB pages with no page resident, the raw
translation of the base of `0x200123` is 0, but the caching translator returns
`0x123`, on the miss and on the following lookup served from the cache. -/
theorem HugepageCachingVirt2Phy.failure_not_reported_as_zero :
    (v2p4k.translate (constPagemap 0) (0x200123 &&& not64 (MB 2 - 1))).val = 0
      ∧ ((HugepageCachingVirt2Phy.init v2p4k).translate (constPagemap 0) 0x200123).val = 0x123
      ∧ (((HugepageCachingVirt2Phy.init v2p4k).translate (constPagemap 0) 0x200123).self.translate
            (constPagemap 0) 0x200123).val = 0x123 := by
  decide

/-- C9, amended: when the raw translator cannot resolve the 2 MiB base of `a`, the
caching translator returns `a mod 2MiB`, on the miss and on every later lookup
over the unchanging pagemap; this is the sentinel 0 exactly when `a` is 2 MiB
aligned. -/
theorem HugepageCachingVirt2Phy.translate_of_unresolved_base (v2p : Virt2Phy) (env : Pagemap)
    (as : List Nat) (a : Nat)
    (hfail : (v2p.translate env (a &&& not64 (MB 2 - 1))).val = 0) :
    (((HugepageCachingVirt2Phy.init v2p).run (calls env as)).translate env a).val = a % MB 2
      ∧ ((((HugepageCachingVirt2Phy.init v2p).run (calls env as)).translate env a).val = 0
          ↔ a % MB 2 = 0) := by
  have hval : (((HugepageCachingVirt2Phy.init v2p).run (calls env as)).translate env a).val
      = a % MB 2 := by
    rw [(CacheInv.of_run as (CacheInv.of_init v2p env)).lookup_val a]
    show ((v2p.translate env (a &&& not64 (MB 2 - 1))).val + a % MB 2) % 2 ^ 64 = a % MB 2
    rw [hfail, Nat.zero_add]
    have hM : MB 2 = 2097152 := by decide
    rw [hM]
    omega
  exact ⟨hval, by rw [hval]⟩

/-- Witness of C9 (amended): a warm lookup of `0x200123` after lookups of `0x200456`
and `0x400000`, no page being resident. -/
theorem HugepageCachingVirt2Phy.translate_of_unresolved_base_witness :
    (((HugepageCachingVirt2Phy.init v2p4k).run
        (calls (constPagemap 0) [0x200456, 0x400000])).translate (constPagemap 0) 0x200123).val
      = 0x200123 % MB 2 :=
  (HugepageCachingVirt2Phy.translate_of_unresolved_base v2p4k (constPagemap 0)
    [0x200456, 0x400000] 0x200123 (by decide)).1

/-- C10: the cache agrees with the raw translator on hugepage-backed memory.  Let the
page size divide 2 MiB, let `b` be 2 MiB aligned with the region `[b, b + 2MiB)`
inside the 64-bit address space, and let every page `i` of the region be fully
readable and resident, its masked entry being the masked entry of the base page
plus `i`.  Then for every `a` of the region, after any sequence of earlier
lookups over the same pagemap (cold or warm), the caching translator returns what
the raw translator returns for `a`.  (The equality holds modulo `2^64`, so it
needs no separate no-overflow condition.) -/
theorem HugepageCachingVirt2Phy.translate_agrees_on_hugepage (v2p : Virt2Phy) (env : Pagemap)
    (b : Nat) (hb : b % MB 2 = 0) (hb64 : b + MB 2 ≤ 2 ^ 64)
    (hdvd : v2p.page_size_ ∣ MB 2)
    (hpages : ∀ i, i < MB 2 / v2p.page_size_ →
      (v2p.read env (b + i * v2p.page_size_)).ret = 8
        ∧ (v2p.read env (b + i * v2p.page_size_)).page &&& (2 ^ 55 - 1) ≠ 0
        ∧ (v2p.read env (b + i * v2p.page_size_)).page &&& (2 ^ 55 - 1)
            = ((v2p.read env b).page &&& (2 ^ 55 - 1)) + i)
    (as : List Nat) (a : Nat) (ha : b ≤ a ∧ a < b + MB 2) :
    (((HugepageCachingVirt2Phy.init v2p).run (calls env as)).translate env a).val
      = (v2p.translate env a).val := by
  have hM : MB 2 = 2097152 := by decide
  have hps : 0 < v2p.page_size_ := by
    rcases Nat.eq_zero_or_pos v2p.page_size_ with h0 | h
    · rw [h0, hM] at hdvd
      exact absurd (Nat.eq_zero_of_zero_dvd hdvd) (by decide)
    · exact h
  simp only [Nat.and_pow_two_sub_one_eq_mod] at hpages
  -- the base of `a` is `b`
  have hbase : va_2_mb a = b := by
    rw [va_2_mb_eq a (by omega), hM]
    rw [hM] at hb ha
    omega
  have hoff : a % MB 2 = a - b := by
    rw [hM] at hb ha ⊢
    omega
  -- the page of `a` inside the region
  obtain ⟨q, hq⟩ : v2p.page_size_ ∣ b := Nat.dvd_trans hdvd (Nat.dvd_of_mod_eq_zero hb)
  have hi : (a - b) / v2p.page_size_ < MB 2 / v2p.page_size_ := by
    apply Nat.div_lt_of_lt_mul
    rw [Nat.mul_div_cancel' hdvd]
    omega
  have hdm := Nat.div_add_mod (a - b) v2p.page_size_
  have hr : (a - b) % v2p.page_size_ < v2p.page_size_ := Nat.mod_lt _ hps
  have ha_eq : a = v2p.page_size_ * (q + (a - b) / v2p.page_size_)
      + (a - b) % v2p.page_size_ := by
    rw [Nat.mul_add, ← hq]
    omega
  have hpage_eq : b + (a - b) / v2p.page_size_ * v2p.page_size_
      = v2p.page_size_ * (q + (a - b) / v2p.page_size_) + 0 := by
    rw [Nat.mul_add, ← hq, Nat.mul_comm]
    rfl
  have hdiv : a / v2p.page_size_
      = (b + (a - b) / v2p.page_size_ * v2p.page_size_) / v2p.page_size_ := by
    rw [hpage_eq]
    conv_lhs => rw [ha_eq]
    rw [Nat.mul_add_div hps, Nat.mul_add_div hps, Nat.div_eq_of_lt hr, Nat.zero_div]
  have hmod : a % v2p.page_size_ = (a - b) % v2p.page_size_ := by
    conv_lhs => rw [ha_eq]
    rw [Nat.mul_add_mod, Nat.mod_eq_of_lt hr]
  have hrd := v2p.read_congr env _ _ hdiv
  obtain ⟨hret0, hm0, -⟩ := hpages 0 (Nat.lt_of_le_of_lt (Nat.zero_le _) hi)
  rw [Nat.zero_mul, Nat.add_zero] at hret0 hm0
  obtain ⟨hreti, hmi, hci⟩ := hpages _ hi
  rw [← hrd] at hreti hmi hci
  have hbmod : b % v2p.page_size_ = 0 := by rw [hq, Nat.mul_mod_right]
  rw [(CacheInv.of_run as (CacheInv.of_init v2p env)).lookup_val a, hbase, hoff,
    v2p.translate_val env b, v2p.translate_val env a, hret0, hreti, toInt_eight,
    if_pos ⟨rfl, hm0⟩, if_pos ⟨rfl, hmi⟩, hci, hbmod, hmod, Nat.add_mul]
  omega

/-- What the hugepage-backed double returns for page `i` of the region at `0x200000`. -/
theorem hugePagemap_read (i : Nat) (hi : i < 512) :
    v2p4k.read hugePagemap (0x200000 + i * 4096) = ⟨8, 0x8180000000010000 + (512 + i)⟩ := by
  have hdiv : (0x200000 + i * 4096) / 4096 = 512 + i := by omega
  have hoff : v2p4k.offset (0x200000 + i * 4096) = ((8 * (512 + i) : Nat) : Int) := by
    simp only [Virt2Phy.offset, Virt2Phy.virt_pfn, v2p4k, hdiv, toLong]
    split_ifs <;> omega
  simp only [Virt2Phy.read, hugePagemap, hoff, Int.toNat_ofNat]
  congr 1
  omega

theorem hugePagemap_pages (i : Nat) (hi : i < MB 2 / v2p4k.page_size_) :
    (v2p4k.read hugePagemap (0x200000 + i * v2p4k.page_size_)).ret = 8
      ∧ (v2p4k.read hugePagemap (0x200000 + i * v2p4k.page_size_)).page &&& (2 ^ 55 - 1) ≠ 0
      ∧ (v2p4k.read hugePagemap (0x200000 + i * v2p4k.page_size_)).page &&& (2 ^ 55 - 1)
          = ((v2p4k.read hugePagemap 0x200000).page &&& (2 ^ 55 - 1)) + i := by
  have h512 : MB 2 / v2p4k.page_size_ = 512 := by decide
  rw [h512] at hi
  have h0 := hugePagemap_read 0 (by decide)
  rw [Nat.zero_mul, Nat.add_zero] at h0
  have hp : v2p4k.page_size_ = 4096 := rfl
  rw [hp, hugePagemap_read i hi, h0]
  simp only [Nat.and_pow_two_sub_one_eq_mod]
  refine ⟨trivial, ?_, ?_⟩ <;> omega

/-- Witness of C10: 4 KiB pages, region `[0x200000, 0x400000)` backed by the frames
`0x10200 + i`; a warm lookup of `0x2abcde` gives `0x102abcde`, as the raw
translator does. -/
theorem HugepageCachingVirt2Phy.translate_agrees_on_hugepage_witness :
    (v2p4k.translate hugePagemap 0x2abcde).val = 0x102abcde
      ∧ (((HugepageCachingVirt2Phy.init v2p4k).run
            (calls hugePagemap [0x200123, 0x2abcde])).translate hugePagemap 0x2abcde).val
          = (v2p4k.translate hugePagemap 0x2abcde).val :=
  ⟨by decide,
   HugepageCachingVirt2Phy.translate_agrees_on_hugepage v2p4k hugePagemap 0x200000
    (by decide) (by decide) (by decide) hugePagemap_pages [0x200123, 0x2abcde] 0x2abcde
    (by decide)⟩

/-! ## Further facts about bases and stored values -/

/-- The raw translator returns a 64-bit value. -/
theorem Virt2Phy.translate_val_lt (self : Virt2Phy) (env : Pagemap) (va : Nat) :
    (self.translate env va).val < 2 ^ 64 := by
  rw [self.translate_val env va]
  split_ifs
  · exact Nat.mod_lt _ (by norm_num)
  · norm_num

/-- A base has its low 21 bits cleared. -/
theorem va_2_mb_and_low (va : Nat) : va_2_mb va &&& (2 ^ 21 - 1) = 0 := by
  have hc : not64 (MB 2 - 1) &&& (2 ^ 21 - 1) = 0 := by decide
  rw [va_2_mb, Nat.and_assoc, hc, Nat.and_zero]

/-- A base is a multiple of 2 MiB. -/
theorem va_2_mb_mod (va : Nat) : va_2_mb va % MB 2 = 0 := by
  have hM : MB 2 = 2 ^ 21 := by decide
  rw [hM, ← Nat.and_pow_two_sub_one_eq_mod]
  exact va_2_mb_and_low va

/-- Taking the base twice is taking it once. -/
theorem va_2_mb_idem (va : Nat) : va_2_mb (va_2_mb va) = va_2_mb va := by
  unfold va_2_mb
  rw [Nat.and_assoc, Nat.and_self]

/-- Offset of a 64-bit address from its base. -/
theorem sub_va_2_mb (va : Nat) (h : va < 2 ^ 64) : va - va_2_mb va = va % MB 2 := by
  rw [va_2_mb_eq va h]
  have := Nat.mod_le va (MB 2)
  omega

/-- Under the invariant, a lookup of the base of `a` returns the raw translation
of that base. -/
theorem CacheInv.lookup_base {v2p : Virt2Phy} {env : Pagemap} {s : HugepageCachingVirt2Phy}
    (hs : CacheInv v2p env s) (a : Nat) :
    (s.translate env (va_2_mb a)).val = (v2p.translate env (va_2_mb a)).val := by
  rw [hs.lookup_val (va_2_mb a), va_2_mb_idem, va_2_mb_mod, Nat.add_zero]
  exact Nat.mod_eq_of_lt (v2p.translate_val_lt env _)

/-! ## Order of lookups, growth and invariants of the cache -/

/-- C11: offset consistency of the cache.  Take a cache reached from the empty one by
any lookups over the unchanging pagemap `env`, a 64-bit address `a` and its base
`b = a & ~(2MiB - 1)`.  Whether `a` is looked up first and `b` next, or `b` first
and `a` next, the result for `a` is the result for `b` plus `a - b`, in 64-bit
arithmetic, whenever the result for `b` is not 0. -/
theorem HugepageCachingVirt2Phy.translate_offset_consistency (v2p : Virt2Phy) (env : Pagemap)
    (as : List Nat) (a : Nat) (ha : a < 2 ^ 64) :
    (((((HugepageCachingVirt2Phy.init v2p).run (calls env as)).translate env a).self.translate
          env (a &&& not64 (MB 2 - 1))).val ≠ 0 →
        (((HugepageCachingVirt2Phy.init v2p).run (calls env as)).translate env a).val
          = (((((HugepageCachingVirt2Phy.init v2p).run (calls env as)).translate env a).self.translate
                env (a &&& not64 (MB 2 - 1))).val + (a - (a &&& not64 (MB 2 - 1)))) % 2 ^ 64)
      ∧ ((((HugepageCachingVirt2Phy.init v2p).run (calls env as)).translate env
            (a &&& not64 (MB 2 - 1))).val ≠ 0 →
        ((((HugepageCachingVirt2Phy.init v2p).run (calls env as)).translate env
              (a &&& not64 (MB 2 - 1))).self.translate env a).val
          = ((((HugepageCachingVirt2Phy.init v2p).run (calls env as)).translate env
                (a &&& not64 (MB 2 - 1))).val + (a - (a &&& not64 (MB 2 - 1)))) % 2 ^ 64) := by
  have hs : CacheInv v2p env ((HugepageCachingVirt2Phy.init v2p).run (calls env as)) :=
    CacheInv.of_run as (CacheInv.of_init v2p env)
  have hoff : a - va_2_mb a = a % MB 2 := sub_va_2_mb a ha
  rw [show a &&& not64 (MB 2 - 1) = va_2_mb a from rfl]
  constructor
  · intro _
    rw [hs.lookup_val a, (hs.step a).lookup_base a, hoff]
  · intro _
    rw [(hs.step (va_2_mb a)).lookup_val a, hs.lookup_base a, hoff]

/-- Witness of C11: frame `0x10000` everywhere on 4 KiB pages, `a = 0x200123` after a
lookup of `0x400000`; both orders give `0x10000123 = 0x10000000 + 0x123`. -/
theorem HugepageCachingVirt2Phy.translate_offset_consistency_witness :
    (((HugepageCachingVirt2Phy.init v2p4k).run (calls (constPagemap 0x10000) [0x400000])).translate
        (constPagemap 0x10000) 0x200123).val = 0x10000123
      ∧ ((((HugepageCachingVirt2Phy.init v2p4k).run
            (calls (constPagemap 0x10000) [0x400000])).translate (constPagemap 0x10000)
              (0x200123 &&& not64 (MB 2 - 1))).self.translate (constPagemap 0x10000) 0x200123).val
          = ((((HugepageCachingVirt2Phy.init v2p4k).run
                (calls (constPagemap 0x10000) [0x400000])).translate (constPagemap 0x10000)
                  (0x200123 &&& not64 (MB 2 - 1))).val
              + (0x200123 - (0x200123 &&& not64 (MB 2 - 1)))) % 2 ^ 64 :=
  ⟨by decide,
   (HugepageCachingVirt2Phy.translate_offset_consistency v2p4k (constPagemap 0x10000)
      [0x400000] 0x200123 (by decide)).2 (by decide)⟩

/-- C12: a miss that fails to resolve is still stored.  When a lookup misses on the
base `b` of `a` and the raw translator returns 0 for `b`, the pair `(b, 0)` is
inserted; after any later calls, a lookup of an address `a2` of that region,
against any pagemap `env2` (one where the entry of `b` is resident, say), is
served from the cache: it returns `0 + a2 mod 2MiB`, performs no I/O and leaves
the object unchanged. -/
theorem HugepageCachingVirt2Phy.failed_miss_is_stored (s : HugepageCachingVirt2Phy)
    (env : Pagemap) (a : Nat) (later : List (Pagemap × Nat)) (env2 : Pagemap) (a2 : Nat)
    (hmiss : s.v2p_cache_.find (va_2_mb a) = none)
    (hfail : (s.v2p_.translate env (va_2_mb a)).val = 0)
    (hreg : va_2_mb a2 = va_2_mb a) :
    (s.translate env a).self.v2p_cache_ = (va_2_mb a, 0) :: s.v2p_cache_
      ∧ ((s.translate env a).self.run later).translate env2 a2
          = ⟨a2 % MB 2, (s.translate env a).self.run later, []⟩ := by
  have hself : (s.translate env a).self = ⟨s.v2p_, (va_2_mb a, 0) :: s.v2p_cache_⟩ := by
    rw [s.translate_miss env a hmiss, hfail]
  have hfind : (s.translate env a).self.v2p_cache_.find (va_2_mb a2) = some (va_2_mb a, 0) := by
    rw [hself, hreg]
    show V2PCache.find ((va_2_mb a, 0) :: s.v2p_cache_) (va_2_mb a) = _
    rw [V2PCache.find_cons, if_pos rfl]
  have hlater := HugepageCachingVirt2Phy.run_find_of_some later _ _ _ hfind
  refine ⟨by rw [hself], ?_⟩
  rw [HugepageCachingVirt2Phy.translate_hit _ env2 a2 _ hlater]
  have hM : MB 2 = 2097152 := by decide
  have hlt : (0 + a2 % MB 2) % 2 ^ 64 = a2 % MB 2 := by
    rw [hM]
    omega
  simp only [hlt]

/-- Witness of C12: no page is resident when `0x200123` is looked up; later the base
`0x200000` is resident (the raw translator would return `0x10000000`), yet the
lookup of `0x200456` returns `0x456` without any read. -/
theorem HugepageCachingVirt2Phy.failed_miss_is_stored_witness :
    (v2p4k.translate doublePagemap 0x200000).val = 0x10000000
      ∧ ((((HugepageCachingVirt2Phy.init v2p4k).translate (constPagemap 0) 0x200123).self.run
            [(doublePagemap, 0x400000)]).translate doublePagemap 0x200456)
          = ⟨0x200456 % MB 2,
              ((HugepageCachingVirt2Phy.init v2p4k).translate (constPagemap 0) 0x200123).self.run
                [(doublePagemap, 0x400000)], []⟩ :=
  ⟨by decide,
   (HugepageCachingVirt2Phy.failed_miss_is_stored (HugepageCachingVirt2Phy.init v2p4k)
      (constPagemap 0) 0x200123 [(doublePagemap, 0x400000)] doublePagemap 0x200456
      (by decide) (by decide) (by decide)).2⟩

/-- C13: the cache only grows.  A call that hits leaves the object, hence the map,
unchanged; a call that misses puts exactly one new pair in front of the old map,
keyed by the base of the requested address, and every pair that could be found
before is found unchanged after; and no sequence of calls, against whatever
pagemaps, removes a pair or changes the value found under a key. -/
theorem HugepageCachingVirt2Phy.cache_only_grows :
    (∀ (s : HugepageCachingVirt2Phy) (env : Pagemap) (a : Nat) (e : Nat × Nat),
        s.v2p_cache_.find (va_2_mb a) = some e → (s.translate env a).self = s)
      ∧ (∀ (s : HugepageCachingVirt2Phy) (env : Pagemap) (a : Nat),
          s.v2p_cache_.find (va_2_mb a) = none →
            (s.translate env a).self.v2p_cache_
                = (va_2_mb a, (s.v2p_.translate env (va_2_mb a)).val) :: s.v2p_cache_
              ∧ (s.translate env a).self.v2p_cache_.length = s.v2p_cache_.length + 1
              ∧ ∀ (k : Nat) (e : Nat × Nat), s.v2p_cache_.find k = some e →
                  (s.translate env a).self.v2p_cache_.find k = some e)
      ∧ ∀ (s : HugepageCachingVirt2Phy) (cs : List (Pagemap × Nat)) (k : Nat) (e : Nat × Nat),
          s.v2p_cache_.find k = some e → (s.run cs).v2p_cache_.find k = some e := by
  refine ⟨?_, ?_, ?_⟩
  · intro s env a e h
    rw [s.translate_hit env a e h]
  · intro s env a h
    have hc : (s.translate env a).self.v2p_cache_
        = (va_2_mb a, (s.v2p_.translate env (va_2_mb a)).val) :: s.v2p_cache_ := by
      rw [s.translate_miss env a h]
    refine ⟨hc, by rw [hc, List.length_cons], ?_⟩
    intro k e hk
    exact s.translate_find_of_some env a k e hk
  · intro s cs k e h
    exact HugepageCachingVirt2Phy.run_find_of_some cs s k e h

/-- Witness of C13: the entry stored for `0x200000` survives lookups in two other
regions and a further lookup in its own region. -/
theorem HugepageCachingVirt2Phy.cache_only_grows_witness :
    (((HugepageCachingVirt2Phy.init v2p4k).translate doublePagemap 0x200123).self.run
        [(doublePagemap, 0x400000), (failingPagemap, 0x600000),
          (failingPagemap, 0x200456)]).v2p_cache_.find 0x200000
      = some (0x200000, 0x10000000) :=
  HugepageCachingVirt2Phy.cache_only_grows.2.2
    ((HugepageCachingVirt2Phy.init v2p4k).translate doublePagemap 0x200123).self
    [(doublePagemap, 0x400000), (failingPagemap, 0x600000), (failingPagemap, 0x200456)]
    0x200000 (0x200000, 0x10000000) (by decide)

/-- A call keeps all keys multiples of 2 MiB. -/
theorem HugepageCachingVirt2Phy.translate_keys (s : HugepageCachingVirt2Phy) (env : Pagemap)
    (a : Nat) (h : ∀ e ∈ s.v2p_cache_, e.1 % MB 2 = 0) :
    ∀ e ∈ (s.translate env a).self.v2p_cache_, e.1 % MB 2 = 0 := by
  cases hf : s.v2p_cache_.find (va_2_mb a) with
  | some e2 => rw [s.translate_hit env a e2 hf]; exact h
  | none =>
    rw [s.translate_miss env a hf]
    intro e he
    rcases List.mem_cons.mp he with rfl | he
    · exact va_2_mb_mod a
    · exact h e he

/-- So does any sequence of calls. -/
theorem HugepageCachingVirt2Phy.run_keys (cs : List (Pagemap × Nat))
    (s : HugepageCachingVirt2Phy) (h : ∀ e ∈ s.v2p_cache_, e.1 % MB 2 = 0) :
    ∀ e ∈ (s.run cs).v2p_cache_, e.1 % MB 2 = 0 := by
  induction cs generalizing s with
  | nil => exact h
  | cons c cs ih => exact ih (s.translate c.1 c.2).self (s.translate_keys c.1 c.2 h)

/-- Keys of a cache reached from the empty one are multiples of 2 MiB. -/
theorem HugepageCachingVirt2Phy.init_run_keys (v2p : Virt2Phy) (cs : List (Pagemap × Nat)) :
    ∀ e ∈ ((HugepageCachingVirt2Phy.init v2p).run cs).v2p_cache_, e.1 % MB 2 = 0 :=
  HugepageCachingVirt2Phy.run_keys cs _ (fun e he => by cases he)

/-- C14: key invariant of the cache.  In every state reached from the empty cache by
`translate` calls (against whatever pagemaps) every key has its low 21 bits
cleared, that is, is a multiple of 2 MiB; after a call for `a` the pair of the
region is stored under the key `a & ~(2MiB - 1)`; and for a 64-bit `a` that key
`b` is a multiple of 2 MiB with `b <= a < b + 2MiB` and `b + a mod 2MiB = a`,
and is the only such multiple. -/
theorem HugepageCachingVirt2Phy.cache_key_invariant :
    (∀ (v2p : Virt2Phy) (cs : List (Pagemap × Nat)),
        ∀ e ∈ ((HugepageCachingVirt2Phy.init v2p).run cs).v2p_cache_,
          e.1 &&& (2 ^ 21 - 1) = 0 ∧ e.1 % MB 2 = 0)
      ∧ (∀ (s : HugepageCachingVirt2Phy) (env : Pagemap) (a : Nat),
          ∃ v, (s.translate env a).self.v2p_cache_.find (a &&& not64 (MB 2 - 1))
            = some (a &&& not64 (MB 2 - 1), v))
      ∧ ∀ a : Nat, a < 2 ^ 64 →
          (a &&& not64 (MB 2 - 1)) % MB 2 = 0
            ∧ (a &&& not64 (MB 2 - 1)) ≤ a
            ∧ a < (a &&& not64 (MB 2 - 1)) + MB 2
            ∧ (a &&& not64 (MB 2 - 1)) + a % MB 2 = a
            ∧ ∀ b : Nat, b % MB 2 = 0 → b ≤ a → a < b + MB 2 → b = a &&& not64 (MB 2 - 1) := by
  have hM : MB 2 = 2097152 := by decide
  refine ⟨?_, ?_, ?_⟩
  · intro v2p cs e he
    have h := HugepageCachingVirt2Phy.init_run_keys v2p cs e he
    refine ⟨?_, h⟩
    rw [Nat.and_pow_two_sub_one_eq_mod]
    rw [hM] at h
    exact h
  · intro s env a
    rw [show a &&& not64 (MB 2 - 1) = va_2_mb a from rfl]
    cases hf : s.v2p_cache_.find (va_2_mb a) with
    | some e =>
      rw [s.translate_hit env a e hf]
      refine ⟨e.2, ?_⟩
      rw [hf, ← (V2PCache.find_some hf).2]
    | none =>
      rw [s.translate_miss env a hf]
      refine ⟨(s.v2p_.translate env (va_2_mb a)).val, ?_⟩
      show V2PCache.find ((va_2_mb a, _) :: s.v2p_cache_) (va_2_mb a) = _
      rw [V2PCache.find_cons, if_pos rfl]
  · intro a ha
    rw [show a &&& not64 (MB 2 - 1) = va_2_mb a from rfl, va_2_mb_eq a ha, hM]
    refine ⟨?_, ?_, ?_, ?_, ?_⟩
    · omega
    · omega
    · omega
    · omega
    · intro b hb hle hlt
      omega

/-- Witness of C14: the address `0x2abcde` has base `0x200000`, which is the key
stored by its lookup. -/
theorem HugepageCachingVirt2Phy.cache_key_invariant_witness :
    (0x2abcde &&& not64 (MB 2 - 1)) = 0x200000
      ∧ 0x200000 = 0x2abcde &&& not64 (MB 2 - 1) :=
  ⟨by decide,
   (HugepageCachingVirt2Phy.cache_key_invariant.2.2 0x2abcde (by decide)).2.2.2.2 0x200000
      (by decide) (by decide) (by decide)⟩

/-- C15: value invariant of the cache.  Over an unchanging pagemap and with a page
size that is a power of two not larger than 2 MiB, every entry `(b, v)` with
`v ≠ 0` of a cache reached from the empty one satisfies
`v = PFN_of(b) * page_size mod 2^64`, where `PFN_of(b)` is the low 55 bits of the
pagemap entry read for `b`: the stored base carries no in-page offset. -/
theorem HugepageCachingVirt2Phy.cache_value_invariant (v2p : Virt2Phy) (env : Pagemap)
    (as : List Nat) (hps : ∃ j, j ≤ 21 ∧ v2p.page_size_ = 2 ^ j) :
    ∀ e ∈ ((HugepageCachingVirt2Phy.init v2p).run (calls env as)).v2p_cache_, e.2 ≠ 0 →
      e.2 = (((v2p.read env e.1).page &&& (2 ^ 55 - 1)) * v2p.page_size_) % 2 ^ 64 := by
  intro e he hne
  obtain ⟨j, hj, hpj⟩ := hps
  have hkey : e.1 % MB 2 = 0 := HugepageCachingVirt2Phy.init_run_keys v2p (calls env as) e he
  have hM : MB 2 = 2 ^ 21 := by decide
  have hdvd : v2p.page_size_ ∣ MB 2 := by
    rw [hpj, hM]
    exact Nat.pow_dvd_pow 2 hj
  have hmod : e.1 % v2p.page_size_ = 0 :=
    Nat.mod_eq_zero_of_dvd (Nat.dvd_trans hdvd (Nat.dvd_of_mod_eq_zero hkey))
  have hval := (CacheInv.of_run as (CacheInv.of_init v2p env)).2 e he
  rw [v2p.translate_val env e.1] at hval
  rw [Nat.and_pow_two_sub_one_eq_mod]
  split_ifs at hval with hc
  · rw [hval, hmod, Nat.add_zero]
  · exact absurd hval hne

/-- Witness of C15: on 4 KiB pages the lookup of `0x200123` stores
`(0x200000, 0x10000000)`, and `0x10000000 = 0x10000 * 4096`. -/
theorem HugepageCachingVirt2Phy.cache_value_invariant_witness :
    (0x10000000 : Nat)
      = (((v2p4k.read doublePagemap 0x200000).page &&& (2 ^ 55 - 1)) * v2p4k.page_size_) % 2 ^ 64 :=
  HugepageCachingVirt2Phy.cache_value_invariant v2p4k doublePagemap [0x200123] ⟨12, by decide, rfl⟩
    (0x200000, 0x10000000) (by decide) (by decide)

/-! ## The read of the raw translator, stability and in-page offset -/

/-- C16: `Virt2Phy::translate(va)` reads exactly one 8-byte entry, at byte offset
`8 * floor(va / page_size)`.  For a 64-bit `va` and a page size of at least 16
that product is below `2^63`, so it neither wraps as a `size_t` nor turns negative
as a `long`; the only `pread` of the call is the one of 8 bytes at that offset;
and a pagemap that answers this read alike gives the same call outcome. -/
theorem Virt2Phy.translate_reads_one_entry (self : Virt2Phy) (env : Pagemap) (va : Nat)
    (hva : va < 2 ^ 64) (hps : 16 ≤ self.page_size_) :
    8 * (va / self.page_size_) < 2 ^ 63
      ∧ self.offset va = ((8 * (va / self.page_size_) : Nat) : Int)
      ∧ (self.translate env va).trace.filter Event.isPread
          = [Event.pread self.fd_ 8 ((8 * (va / self.page_size_) : Nat) : Int)]
      ∧ ∀ env2 : Pagemap,
          env2.pread self.fd_ 8 ((8 * (va / self.page_size_) : Nat) : Int)
              = env.pread self.fd_ 8 ((8 * (va / self.page_size_) : Nat) : Int) →
            self.translate env2 va = self.translate env va := by
  have hq : va / self.page_size_ < 2 ^ 60 := by
    have h1 : va / self.page_size_ ≤ va / 16 := Nat.div_le_div_left hps (by norm_num)
    omega
  have hoff : self.offset va = ((8 * (va / self.page_size_) : Nat) : Int) := by
    simp only [Virt2Phy.offset, Virt2Phy.virt_pfn, toLong]
    split_ifs <;> omega
  refine ⟨by omega, hoff, ?_, ?_⟩
  · rw [← hoff]
    unfold Virt2Phy.translate
    simp only [kPfnMaskSize]
    split_ifs <;> simp [Event.isPread]
  · intro env2 h
    unfold Virt2Phy.translate
    simp only [Virt2Phy.read, kPfnMaskSize, hoff, h]

/-- Witness of C16: on 4 KiB pages the address `0x7f0000001abc` is read at offset
`8 * 0x7f0000001 = 0x3f800000008`. -/
theorem Virt2Phy.translate_reads_one_entry_witness :
    (v2p4k.translate (constPagemap 0x12345) 0x7f0000001abc).trace.filter Event.isPread
      = [Event.pread v2p4k.fd_ 8 ((8 * (0x7f0000001abc / v2p4k.page_size_) : Nat) : Int)] :=
  (Virt2Phy.translate_reads_one_entry v2p4k (constPagemap 0x12345) 0x7f0000001abc
    (by decide) (by decide)).2.2.1

/-- C17: stability of the raw translator.  A call of `Virt2Phy::translate` leaves the
members `fd_` and `page_size_` as they were, and a second call for the same
address against the unchanged pagemap has the same outcome as the first, for
every address (resident and page-aligned or not). -/
theorem Virt2Phy.translate_stable (self : Virt2Phy) (env : Pagemap) (p : Nat) :
    (self.translate env p).self = self
      ∧ (self.translate env p).self.fd_ = self.fd_
      ∧ (self.translate env p).self.page_size_ = self.page_size_
      ∧ ((self.translate env p).self.translate env p).val = (self.translate env p).val := by
  have h := self.translate_self env p
  refine ⟨h, ?_, ?_, ?_⟩ <;> rw [h]

/-- C18: the in-page offset is preserved.  When the page size is a power of two (at
most `2^63`) and the read yields a full entry with non-zero low 55 bits, the
result of `Virt2Phy::translate(va)` is congruent to `va` modulo the page size,
also when `PFN * page_size` wraps modulo `2^64`. -/
theorem Virt2Phy.translate_keeps_page_offset (self : Virt2Phy) (env : Pagemap) (va e : Nat)
    (hps : ∃ j, j ≤ 63 ∧ self.page_size_ = 2 ^ j)
    (hrd : self.read env va = ⟨8, e⟩) (hm : e &&& (2 ^ 55 - 1) ≠ 0) :
    (self.translate env va).val % self.page_size_ = va % self.page_size_ := by
  obtain ⟨j, hj, hpj⟩ := hps
  rw [Nat.and_pow_two_sub_one_eq_mod] at hm
  have hdvd : self.page_size_ ∣ 2 ^ 64 := by
    rw [hpj]
    exact Nat.pow_dvd_pow 2 (by omega)
  rw [self.translate_val_of_full env va (by rw [hrd]) (by rw [hrd]; exact hm),
    Nat.mod_mod_of_dvd _ hdvd, Nat.add_mod, Nat.mul_mod_left, Nat.zero_add, Nat.mod_mod,
    Nat.mod_mod]

/-- Witness of C18: on 4 KiB pages the masked entry `2^52 + 5` makes the product wrap
(`(2^52 + 5) * 4096 = 2^64 + 0x5000`); the result `0x5abc` keeps the offset `0xabc`. -/
theorem Virt2Phy.translate_keeps_page_offset_witness :
    (v2p4k.translate (constPagemap (2 ^ 52 + 5)) 0x7f0000001abc).val = 0x5abc
      ∧ (v2p4k.translate (constPagemap (2 ^ 52 + 5)) 0x7f0000001abc).val % v2p4k.page_size_
          = 0x7f0000001abc % v2p4k.page_size_ :=
  ⟨by decide,
   Virt2Phy.translate_keeps_page_offset v2p4k (constPagemap (2 ^ 52 + 5)) 0x7f0000001abc
    (2 ^ 52 + 5) ⟨12, by decide, rfl⟩ rfl (by decide)⟩

end erpc
